import Mathlib

/-!
Shallow embedding of the drpg synchronization engine (src/drpg/sync.py).

Python strings are modelled as Lean `String`, file contents as `List Nat`
(byte sequences), filesystem paths as `List String` (path segments, as built
by `pathlib`'s `/` operator, which drops empty parts), the SQLite `files`
table as an association list keyed by `(product_id, item_id)`, and the
`products` table as an association list keyed by `product_id`.  The md5
function is an explicit parameter (it is a fixed pure function of the bytes).
-/

namespace Drpg

/-! ### Data model (drpg.custom_types; `DownloadItem.fileLastModified` is
modelled from the spec, see its comment) -/

/-- Checksum entry reported by the remote API: a `{checksum, checksumDate}`
pair. -/
structure ChecksumEntry where
  checksum : String
  checksumDate : String
  deriving DecidableEq, Repr

/-- Remote file item of a product, as enumerated by the API.
`index`, `filename` and `checksums` are read by `sync.py`.
`fileLastModified` is Modelled from the spec: the type declarations of
`drpg.custom_types` are not part of the sources at hand, and §6 of the spec
states that each `Item` carries `{index, filename, fileLastModified,
checksums}`; `sync.py` itself never reads this per-item field. -/
structure DownloadItem where
  index : Nat
  filename : String
  fileLastModified : String
  checksums : List ChecksumEntry
  deriving DecidableEq, Repr

/-- Remote product, as enumerated by the API.  `publisher` is the optional
publisher name (`product.get("publisher", {}).get("name")`).
`fileLastModified` is the product-level field that `sync.py` reads at
`_need_download_db` (line 191) and `_process_item_db` (line 302). -/
structure Product where
  orderProductId : Nat
  name : String
  publisher : Option String
  fileLastModified : String
  files : List DownloadItem
  deriving DecidableEq, Repr

/-! ### Path normalizer (class `PathNormalizer` and `_normalize_path_part`) -/

/-- Characters matched by Python's `\s` on the inputs arising here: the ASCII
whitespace characters plus the non-breaking space produced by decoding
`&nbsp;`. -/
def isPyWhitespace (c : Char) : Bool :=
  c = ' ' ∨ c = '\t' ∨ c = '\n' ∨ c = '\r' ∨ c = Char.ofNat 11 ∨ c = Char.ofNat 12 ∨
    c = Char.ofNat 160

/-- Characters matched by the regex `[<>:"/\\|?*]` in `PathNormalizer.normalize`. -/
def isForbiddenChar (c : Char) : Bool :=
  c = '<' ∨ c = '>' ∨ c = ':' ∨ c = '"' ∨ c = '/' ∨ c = '\\' ∨ c = '|' ∨ c = '?' ∨ c = '*'

/-- Model of Python `html.unescape`, restricted to the named HTML entities
relevant to this development (`&amp; &lt; &gt; &quot; &nbsp;`); all other
text is passed through unchanged.  Like `html.unescape`, replacement is a
single left-to-right pass (no re-decoding of produced text). -/
def unescapeChars : List Char → List Char
  | '&' :: 'a' :: 'm' :: 'p' :: ';' :: rest => '&' :: unescapeChars rest
  | '&' :: 'l' :: 't' :: ';' :: rest => '<' :: unescapeChars rest
  | '&' :: 'g' :: 't' :: ';' :: rest => '>' :: unescapeChars rest
  | '&' :: 'q' :: 'u' :: 'o' :: 't' :: ';' :: rest => '"' :: unescapeChars rest
  | '&' :: 'n' :: 'b' :: 's' :: 'p' :: ';' :: rest => Char.ofNat 160 :: unescapeChars rest
  | c :: rest => c :: unescapeChars rest
  | [] => []

/-- Model of `re.sub(r'[<>:"/\\|?*]', " - ", part)`: each forbidden character
is replaced by the three-character separator. -/
def replaceForbidden : List Char → List Char
  | [] => []
  | c :: rest =>
      if isForbiddenChar c then ' ' :: '-' :: ' ' :: replaceForbidden rest
      else c :: replaceForbidden rest

/-- Characters of the Python string `" - "`, the argument of `str.strip`. -/
def isStripChar (c : Char) : Bool :=
  c = ' ' ∨ c = '-'

/-- Model of Python `str.strip(" - ")`: removes leading and trailing
characters drawn from the SET `{' ', '-'}` (Python `strip` treats its
argument as a character set, not as a sequence). -/
def stripChars (l : List Char) : List Char :=
  ((l.dropWhile isStripChar).reverse.dropWhile isStripChar).reverse

/-- Consumes a maximal run of leading `" - "` occurrences. -/
def eatSeps : List Char → List Char
  | ' ' :: '-' :: ' ' :: rest => eatSeps rest
  | l => l

/-- Scanner for `re.sub("( - )+", " - ", part)`.  The flag records whether the
scanner is directly behind an emitted separator, so that further consecutive
`" - "` occurrences (the `+` of the pattern) are consumed without output. -/
def collapseSepAux : Bool → List Char → List Char
  | afterSep, ' ' :: '-' :: ' ' :: rest =>
      if afterSep then collapseSepAux true rest
      else ' ' :: '-' :: ' ' :: collapseSepAux true rest
  | _, c :: rest => c :: collapseSepAux false rest
  | _, [] => []

/-- Model of `re.sub("( - )+", " - ", part)`: every maximal run of consecutive
`" - "` separators collapses to a single one. -/
def collapseSep (l : List Char) : List Char :=
  collapseSepAux false l

/-- Scanner for `re.sub(r"\s+", " ", part)`.  The flag records whether the
previous character was whitespace, so that a whitespace run emits exactly one
space. -/
def collapseWsAux : Bool → List Char → List Char
  | _, [] => []
  | prevWs, c :: rest =>
      if isPyWhitespace c then
        if prevWs then collapseWsAux true rest
        else ' ' :: collapseWsAux true rest
      else c :: collapseWsAux false rest

/-- Model of `re.sub(r"\s+", " ", part)`: every maximal run of whitespace
collapses to a single space. -/
def collapseWs (l : List Char) : List Char :=
  collapseWsAux false l

/-- Characters matched by the regex `[^a-zA-Z0-9.\s]`
(`PathNormalizer.non_standard_characters`). -/
def isNonStandard (c : Char) : Bool :=
  ¬ (c.isAlpha ∨ c.isDigit ∨ c = '.' ∨ isPyWhitespace c)

namespace PathNormalizer

/-- Model of `PathNormalizer.normalize` (default policy, sync.py lines
434-441): html-unescape, replace forbidden characters by `" - "`, Python
`strip(" - ")`, collapse repeated separators, collapse whitespace. -/
def normalize (part : String) : String :=
  let p1 := unescapeChars part.data
  let p2 := replaceForbidden p1
  let p3 := stripChars p2
  let p4 := collapseSep p3
  let p5 := collapseWs p4
  String.mk p5

/-- Model of `PathNormalizer.normalize_drivethrurpg_compatible` (sync.py lines
427-432): replace every non-standard character by an underscore, then collapse
whitespace runs. -/
def normalizeDrivethrurpgCompatible (part : String) : String :=
  String.mk (collapseWs (part.data.map (fun c => if isNonStandard c then '_' else c)))

end PathNormalizer

/-- Model of `_normalize_path_part` (sync.py lines 382-410). -/
def normalizePathPart (part : String) (compatibilityMode : Bool) : String :=
  if compatibilityMode then PathNormalizer.normalizeDrivethrurpgCompatible part
  else PathNormalizer.normalize part

/-! ### Newest checksum (`_newest_checksum`, sync.py lines 413-418) -/

/-- Model of `datetime.fromisoformat` on the date strings used here, as the
numeric key obtained by reading the digits in order (`"2021-01-01"` becomes
`20210101`).  On fixed-width ISO dates this key is order-isomorphic to the
parsed datetime, which is all `max(..., key=...)` consumes. -/
def datetimeFromIso (s : String) : Nat :=
  s.data.foldl (fun a c => if c.isDigit then a * 10 + (c.toNat - 48) else a) 0

/-- Step of Python `max` with the `checksumDate` key: the running maximum is
replaced only on a strictly greater key (ties keep the earlier entry). -/
def maxStep (acc x : ChecksumEntry) : ChecksumEntry :=
  if datetimeFromIso acc.checksumDate < datetimeFromIso x.checksumDate then x else acc

/-- Model of `_newest_checksum`: Python `max` over the checksum entries keyed
by the parsed `checksumDate`; an item with no entries yields the default
`{"checksum": None}`, i.e. `none`. -/
def newestChecksum (item : DownloadItem) : Option String :=
  match item.checksums with
  | [] => none
  | c :: cs => some ((cs.foldl maxStep c).checksum)

theorem maxStep_le_left (c x : ChecksumEntry) :
    datetimeFromIso c.checksumDate ≤ datetimeFromIso (maxStep c x).checksumDate := by
  unfold maxStep
  by_cases h : datetimeFromIso c.checksumDate < datetimeFromIso x.checksumDate
  · rw [if_pos h]
    exact le_of_lt h
  · rw [if_neg h]

theorem maxStep_le_right (c x : ChecksumEntry) :
    datetimeFromIso x.checksumDate ≤ datetimeFromIso (maxStep c x).checksumDate := by
  unfold maxStep
  by_cases h : datetimeFromIso c.checksumDate < datetimeFromIso x.checksumDate
  · rw [if_pos h]
  · rw [if_neg h]
    exact le_of_not_lt h

theorem foldl_maxStep_mem (cs : List ChecksumEntry) (c : ChecksumEntry) :
    cs.foldl maxStep c ∈ c :: cs := by
  induction cs generalizing c with
  | nil => exact List.mem_singleton_self c
  | cons x cs ih =>
      rw [List.foldl_cons]
      have h := ih (maxStep c x)
      rcases List.mem_cons.mp h with heq | hmem
      · rw [heq]
        unfold maxStep
        by_cases hlt : datetimeFromIso c.checksumDate < datetimeFromIso x.checksumDate
        · rw [if_pos hlt]
          exact List.mem_cons_of_mem _ (List.mem_cons_self _ _)
        · rw [if_neg hlt]
          exact List.mem_cons_self _ _
      · exact List.mem_cons_of_mem _ (List.mem_cons_of_mem _ hmem)

theorem foldl_maxStep_ge (cs : List ChecksumEntry) (c : ChecksumEntry) :
    ∀ e ∈ c :: cs, datetimeFromIso e.checksumDate ≤
      datetimeFromIso (cs.foldl maxStep c).checksumDate := by
  induction cs generalizing c with
  | nil =>
      intro e he
      rw [List.mem_singleton] at he
      subst he
      exact le_refl _
  | cons x cs ih =>
      intro e he
      rw [List.foldl_cons]
      rcases List.mem_cons.mp he with heq | he'
      · subst heq
        exact (maxStep_le_left e x).trans (ih (maxStep e x) _ (List.mem_cons_self _ _))
      · rcases List.mem_cons.mp he' with heq | he''
        · subst heq
          exact (maxStep_le_right c e).trans (ih (maxStep c e) _ (List.mem_cons_self _ _))
        · exact ih (maxStep c x) e (List.mem_cons_of_mem _ he'')

/-! ### Configuration (the options of `drpg.config.Config` that `sync.py`
reads) and the cache / filesystem state -/

/-- Configuration options consumed by the sync engine.  `libraryPath` is the
library root, already split into path segments. -/
structure Config where
  libraryPath : List String
  useChecksums : Bool
  validate : Bool
  compatibilityMode : Bool
  omitPublisher : Bool
  dryRun : Bool
  threads : Nat
  deriving DecidableEq, Repr

/-- Joining path segments onto a root, as `pathlib`'s `/` operator does:
empty segments are dropped. -/
def pathJoin (root : List String) (segs : List String) : List String :=
  root ++ segs.filter (fun s => s ≠ "")

/-- Model of `DrpgSync._file_path` (sync.py lines 370-379). -/
def filePath (cfg : Config) (product : Product) (item : DownloadItem) : List String :=
  let publishersName := normalizePathPart (product.publisher.getD "Others") cfg.compatibilityMode
  let productName := normalizePathPart product.name cfg.compatibilityMode
  let itemName := normalizePathPart item.filename cfg.compatibilityMode
  if cfg.omitPublisher then pathJoin cfg.libraryPath [productName, itemName]
  else pathJoin cfg.libraryPath [publishersName, productName, itemName]

/-- Row of the `files` table (the FileRecord of the spec). -/
structure FileRecord where
  filename : String
  api_last_modified : Option String
  api_checksum : Option String
  local_path : List String
  local_last_synced : Option String
  local_checksum : Option String
  deriving DecidableEq, Repr

/-- Row of the `products` table. -/
structure ProductRow where
  name : String
  publisher_name : Option String
  last_api_check : String
  deriving DecidableEq, Repr

/-- The `files` table: a finite map keyed by `(product_id, item_id)`,
modelled as an association list. -/
abbrev Cache : Type := List ((Nat × Nat) × FileRecord)

/-- Point lookup in the `files` table (`DrpgSync._get_db_file_info`). -/
def lookupFile (c : Cache) (k : Nat × Nat) : Option FileRecord :=
  (List.find? (fun kv => kv.1 = k) c).map (fun kv => kv.2)

/-- The SQL `INSERT ... ON CONFLICT(product_id, item_id) DO UPDATE` upsert of
`_process_item_db`, as a keyed-map update. -/
def upsertFile (k : Nat × Nat) (r : FileRecord) (c : Cache) : Cache :=
  (k, r) :: List.filter (fun kv => kv.1 ≠ k) c

/-- The composite key of an item within a product
(`(product["orderProductId"], item["index"])`). -/
def itemKey (product : Product) (item : DownloadItem) : Nat × Nat :=
  (product.orderProductId, item.index)

/-- State of the world as the engine sees it: the two database tables, the
set of files present on disk (as the list of their paths), and whether the
database connection has been closed. -/
structure SyncState where
  productsTable : List (Nat × ProductRow)
  cache : Cache
  fs : List (List String)
  connClosed : Bool

/-- Model of `DrpgSync._update_product_in_db`: SQL upsert into `products`. -/
def upsertProduct (now : String) (p : Product) (t : List (Nat × ProductRow)) :
    List (Nat × ProductRow) :=
  (p.orderProductId, ⟨p.name, p.publisher, now⟩) ::
    List.filter (fun kv => kv.1 ≠ p.orderProductId) t

/-- Product upserts performed while iterating the enumeration response. -/
def upsertProducts (now : String) (ps : List Product) (t : List (Nat × ProductRow)) :
    List (Nat × ProductRow) :=
  ps.foldl (fun acc p => upsertProduct now p acc) t

/-! ### Change detector (`DrpgSync._need_download_db`, sync.py lines 168-222) -/

/-- Model of `DrpgSync._need_download_db`: the short-circuiting disjunction
over (1) no cache row, (2) recomputed path differs from `local_path`,
(3) the product-level `fileLastModified` differs from `api_last_modified`,
(4) with `use_checksums`, the newest reported checksum differs from
`api_checksum`, (5) the file is missing on disk. -/
def needDownloadDb (cfg : Config) (st : SyncState) (product : Product)
    (item : DownloadItem) : Bool :=
  let expectedPath := filePath cfg product item
  match lookupFile st.cache (itemKey product item) with
  | none => true
  | some dbInfo =>
      if expectedPath ≠ dbInfo.local_path then true
      else if some product.fileLastModified ≠ dbInfo.api_last_modified then true
      else if cfg.useChecksums = true ∧ newestChecksum item ≠ dbInfo.api_checksum then true
      else if expectedPath ∉ st.fs then true
      else false

/-! ### Download pipeline (`DrpgSync._process_item_db`, sync.py lines 224-324) -/

/-- Outcome of `DrpgApi.prepare_download_url` for one item: either a url, or
a `PrepareDownloadUrlException`. -/
inductive UrlOutcome where
  | success (url : String)
  | failure
  deriving DecidableEq, Repr

/-- Outcome of the `httpx.get` content fetch for one item. -/
inductive FetchOutcome where
  | success (content : List Nat)
  | httpStatusError
  | requestError
  deriving DecidableEq, Repr

/-- The external events one worker's pipeline run observes: URL issuance,
content fetch, whether the filesystem write succeeds, and the wall-clock
timestamp taken before the upsert. -/
structure ItemEnv where
  url : UrlOutcome
  fetch : FetchOutcome
  writeOk : Bool
  nowIso : String
  deriving DecidableEq, Repr

/-- Python truthiness of the optional checksum string, as tested by
`if self._config.validate and api_checksum:`. -/
def checksumTruthy : Option String → Bool
  | none => false
  | some s => decide (s ≠ "")

/-- Row written by a successful pipeline run (step 5 of `_process_item_db`):
`api_last_modified` is the product-level `fileLastModified`, `api_checksum`
the newest reported checksum, `local_checksum` the md5 of the fetched bytes
when validation ran, `None` otherwise. -/
def writtenRecord (cfg : Config) (md5 : List Nat → String) (product : Product)
    (item : DownloadItem) (content : List Nat) (nowIso : String) : FileRecord :=
  { filename := item.filename
    api_last_modified := some product.fileLastModified
    api_checksum := newestChecksum item
    local_path := filePath cfg product item
    local_last_synced := some nowIso
    local_checksum :=
      if cfg.validate = true ∧ checksumTruthy (newestChecksum item) = true then
        some (md5 content)
      else none }

/-- Model of `DrpgSync._process_item_db`: dry-run returns untouched; a failed
URL acquisition, a failed fetch, a checksum-validation mismatch or a failed
write abandon the item with no state change; otherwise the file is written
and the cache row upserted. -/
def processItemDb (cfg : Config) (md5 : List Nat → String) (env : ItemEnv)
    (product : Product) (item : DownloadItem) (st : SyncState) : SyncState :=
  let path := filePath cfg product item
  if cfg.dryRun = true then st
  else
    match env.url with
    | .failure => st
    | .success _ =>
        match env.fetch with
        | .httpStatusError => st
        | .requestError => st
        | .success content =>
            let apiChecksum := newestChecksum item
            if cfg.validate = true ∧ checksumTruthy apiChecksum = true ∧
                some (md5 content) ≠ apiChecksum then st
            else if env.writeOk = false then st
            else
              { st with
                cache := upsertFile (itemKey product item)
                  (writtenRecord cfg md5 product item content env.nowIso) st.cache
                fs := path :: st.fs }

/-! ### Orphan cleanup (`DrpgSync._cleanup_db`, sync.py lines 327-356) -/

/-- Model of `DrpgSync._cleanup_db` on the `files` table: with an empty
touched set the method returns without deleting anything; otherwise exactly
the rows whose key is missing from the touched set are deleted. -/
def cleanupDb (touched : List (Nat × Nat)) (c : Cache) : Cache :=
  if touched = [] then c
  else List.filter (fun kv => decide (kv.1 ∈ touched)) c

/-- Cleanup at the state level: `_cleanup_db` only issues `DELETE FROM files`
statements; the filesystem is never touched. -/
def cleanupState (touched : List (Nat × Nat)) (st : SyncState) : SyncState :=
  { st with cache := cleanupDb touched st.cache }

/-! ### Sync orchestrator (`DrpgSync.sync`, sync.py lines 98-136) -/

/-- The `(product, item)` pairs in enumeration order, as accumulated in
`process_item_args`. -/
def enumeratedItems (yielded : List Product) : List (Product × DownloadItem) :=
  yielded.flatMap (fun p => p.files.map (fun i => (p, i)))

/-- The touched-key set of a pass, in enumeration order. -/
def touchedKeys (yielded : List Product) : List (Nat × Nat) :=
  yielded.flatMap (fun p => p.files.map (fun i => itemKey p i))

/-- Sequential model of the download pool: each dispatched item's pipeline
runs `processItemDb` with its own environment.  Within a pass each key is
handled by exactly one worker and all cache mutations are single atomic
upserts, so the pool's interleavings are equivalent to this fold. -/
def runItems (cfg : Config) (md5 : List Nat → String) (envs : Nat × Nat → ItemEnv)
    (l : List (Product × DownloadItem)) (st : SyncState) : SyncState :=
  l.foldl (fun s pi => processItemDb cfg md5 (envs (itemKey pi.1 pi.2)) pi.1 pi.2 s) st

/-- State after the enumeration loop's product upserts. -/
def afterProducts (now : String) (yielded : List Product) (st : SyncState) : SyncState :=
  { st with productsTable := upsertProducts now yielded st.productsTable }

/-- The items a pass flags for download: the sequential change-detection loop
of `sync` (lines 122-125), run before any download starts. -/
def passToDownload (cfg : Config) (now : String) (yielded : List Product)
    (st : SyncState) : List (Product × DownloadItem) :=
  (enumeratedItems yielded).filter
    (fun pi => needDownloadDb cfg (afterProducts now yielded st) pi.1 pi.2)

/-- Model of one full `DrpgSync.sync` pass.  `yielded` is the list of
products the enumeration generator produced; `enumOk = false` means the
generator raised after producing them (the `except` branch of lines 115-118).
`envs` assigns each item key the external events its pipeline run would
observe.  Returns the final state together with the keys of the items
dispatched to the download pool. -/
def syncPass (cfg : Config) (md5 : List Nat → String) (now : String)
    (envs : Nat × Nat → ItemEnv) (yielded : List Product) (enumOk : Bool)
    (st : SyncState) : SyncState × List (Nat × Nat) :=
  let st1 := afterProducts now yielded st
  if enumOk = false then ({ st1 with connClosed := true }, [])
  else
    let toDownload := passToDownload cfg now yielded st
    let st2 := runItems cfg md5 envs toDownload st1
    let st3 := cleanupState (touchedKeys yielded) st2
    ({ st3 with connClosed := true }, toDownload.map (fun pi => itemKey pi.1 pi.2))

/-! ### Lemmas about the cache map -/

theorem find?_filter_of_imp {α : Type} (p q : α → Bool) (l : List α)
    (h : ∀ x, p x = true → q x = true) :
    List.find? p (List.filter q l) = List.find? p l := by
  induction l with
  | nil => rfl
  | cons a l ih =>
      by_cases hp : p a = true
      · have hq := h a hp
        simp [List.filter_cons, hq, List.find?_cons, hp, ih]
      · rcases hqa : q a
        · simp [List.filter_cons, hqa, List.find?_cons,
            Bool.not_eq_true _ ▸ hp, ih]
        · simp [List.filter_cons, hqa, List.find?_cons,
            Bool.not_eq_true _ ▸ hp, ih]

theorem lookupFile_upsert_self (c : Cache) (k : Nat × Nat) (r : FileRecord) :
    lookupFile (upsertFile k r c) k = some r := by
  simp [lookupFile, upsertFile, List.find?_cons]

theorem lookupFile_upsert_ne (c : Cache) (k k' : Nat × Nat) (r : FileRecord)
    (h : k' ≠ k) :
    lookupFile (upsertFile k r c) k' = lookupFile c k' := by
  unfold lookupFile upsertFile
  rw [List.find?_cons]
  have hd : (decide ((k, r).1 = k')) = false := by
    simp
    exact fun hk => (h hk.symm).elim
  rw [hd]
  rw [find?_filter_of_imp _ _ c]
  intro x hx
  simp at hx ⊢
  intro hxk
  rw [hxk] at hx
  exact h hx.symm

theorem lookupFile_cleanup_mem (touched : List (Nat × Nat)) (c : Cache)
    (k : Nat × Nat) (hne : touched ≠ []) (hk : k ∈ touched) :
    lookupFile (cleanupDb touched c) k = lookupFile c k := by
  unfold cleanupDb lookupFile
  rw [if_neg hne]
  rw [find?_filter_of_imp _ _ c]
  intro x hx
  simp at hx ⊢
  rw [hx]
  exact hk

theorem lookupFile_cleanup_notmem (touched : List (Nat × Nat)) (c : Cache)
    (k : Nat × Nat) (hne : touched ≠ []) (hk : k ∉ touched) :
    lookupFile (cleanupDb touched c) k = none := by
  unfold cleanupDb lookupFile
  rw [if_neg hne]
  rw [List.find?_eq_none.mpr]
  · rfl
  · intro x hx
    have hq := List.of_mem_filter hx
    simp at hq
    simp
    intro hxk
    rw [hxk] at hq
    exact absurd hq hk

theorem cleanupDb_nil (c : Cache) : cleanupDb [] c = c := by
  simp [cleanupDb]

/-! ### Lemmas about one pipeline run -/

/-- Success conditions for one pipeline run: a URL is issued, the fetch
yields content, the write succeeds, and whenever validation would run the
fetched bytes hash to the reported newest checksum. -/
def envSucceeds (cfg : Config) (md5 : List Nat → String) (env : ItemEnv)
    (item : DownloadItem) : Prop :=
  (∃ u, env.url = .success u) ∧ env.writeOk = true ∧
    ∃ content, env.fetch = .success content ∧
      (cfg.validate = true → ∀ a, newestChecksum item = some a → a ≠ "" →
        md5 content = a)

theorem processItemDb_eq_or (cfg : Config) (md5 : List Nat → String)
    (env : ItemEnv) (product : Product) (item : DownloadItem) (st : SyncState) :
    processItemDb cfg md5 env product item st = st ∨
      ∃ content, env.fetch = .success content ∧
        processItemDb cfg md5 env product item st =
          { st with
            cache := upsertFile (itemKey product item)
              (writtenRecord cfg md5 product item content env.nowIso) st.cache
            fs := filePath cfg product item :: st.fs } := by
  by_cases hd : cfg.dryRun = true
  · left; simp [processItemDb, hd]
  · cases hu : env.url with
    | failure => left; simp [processItemDb, hd, hu]
    | success u =>
        cases hf : env.fetch with
        | httpStatusError => left; simp [processItemDb, hd, hu, hf]
        | requestError => left; simp [processItemDb, hd, hu, hf]
        | success content =>
            by_cases hv : cfg.validate = true ∧
                checksumTruthy (newestChecksum item) = true ∧
                some (md5 content) ≠ newestChecksum item
            · left; simp only [processItemDb, hd, hu, hf]
              simp [hv]
            · by_cases hw : env.writeOk = false
              · left; simp only [processItemDb, hd, hu, hf]
                simp [hv, hw]
              · right
                refine ⟨content, rfl, ?_⟩
                simp only [processItemDb, hd, hu, hf]
                simp [hv, hw]

theorem processItemDb_lookup_ne (cfg : Config) (md5 : List Nat → String)
    (env : ItemEnv) (product : Product) (item : DownloadItem) (st : SyncState)
    (k : Nat × Nat) (h : k ≠ itemKey product item) :
    lookupFile (processItemDb cfg md5 env product item st).cache k =
      lookupFile st.cache k := by
  rcases processItemDb_eq_or cfg md5 env product item st with heq | ⟨content, _, heq⟩
  · rw [heq]
  · rw [heq]
    exact lookupFile_upsert_ne _ _ _ _ h

theorem processItemDb_fs_sub (cfg : Config) (md5 : List Nat → String)
    (env : ItemEnv) (product : Product) (item : DownloadItem) (st : SyncState) :
    st.fs ⊆ (processItemDb cfg md5 env product item st).fs := by
  rcases processItemDb_eq_or cfg md5 env product item st with heq | ⟨content, _, heq⟩
  · rw [heq]
    exact fun x hx => hx
  · rw [heq]
    exact List.subset_cons_self _ _

theorem processItemDb_success (cfg : Config) (md5 : List Nat → String)
    (env : ItemEnv) (product : Product) (item : DownloadItem) (st : SyncState)
    (hdry : cfg.dryRun = false) (h : envSucceeds cfg md5 env item) :
    ∃ content, env.fetch = .success content ∧
      processItemDb cfg md5 env product item st =
        { st with
          cache := upsertFile (itemKey product item)
            (writtenRecord cfg md5 product item content env.nowIso) st.cache
          fs := filePath cfg product item :: st.fs } := by
  obtain ⟨⟨u, hu⟩, hw, content, hf, hval⟩ := h
  refine ⟨content, hf, ?_⟩
  have hnv : ¬(cfg.validate = true ∧ checksumTruthy (newestChecksum item) = true ∧
      some (md5 content) ≠ newestChecksum item) := by
    rintro ⟨h1, h2, h3⟩
    cases hnc : newestChecksum item with
    | none => rw [hnc] at h2; simp [checksumTruthy] at h2
    | some a =>
        rw [hnc] at h2 h3
        simp [checksumTruthy] at h2
        exact h3 (by rw [hval h1 a hnc h2])
  simp only [processItemDb, hdry, hu, hf]
  simp [hnv, hw]

/-! ### Lemmas about the download phase as a whole -/

theorem runItems_cons (cfg : Config) (md5 : List Nat → String)
    (envs : Nat × Nat → ItemEnv) (pi : Product × DownloadItem)
    (l : List (Product × DownloadItem)) (st : SyncState) :
    runItems cfg md5 envs (pi :: l) st =
      runItems cfg md5 envs l
        (processItemDb cfg md5 (envs (itemKey pi.1 pi.2)) pi.1 pi.2 st) := rfl

theorem runItems_lookup_notmem (cfg : Config) (md5 : List Nat → String)
    (envs : Nat × Nat → ItemEnv) (l : List (Product × DownloadItem))
    (st : SyncState) (k : Nat × Nat)
    (h : k ∉ l.map (fun pi => itemKey pi.1 pi.2)) :
    lookupFile (runItems cfg md5 envs l st).cache k = lookupFile st.cache k := by
  induction l generalizing st with
  | nil => rfl
  | cons pi l ih =>
      simp only [List.map_cons, List.mem_cons, not_or] at h
      rw [runItems_cons, ih _ h.2,
        processItemDb_lookup_ne _ _ _ _ _ _ _ h.1]

theorem runItems_fs_sub (cfg : Config) (md5 : List Nat → String)
    (envs : Nat × Nat → ItemEnv) (l : List (Product × DownloadItem))
    (st : SyncState) :
    st.fs ⊆ (runItems cfg md5 envs l st).fs := by
  induction l generalizing st with
  | nil => exact fun x hx => hx
  | cons pi l ih =>
      rw [runItems_cons]
      exact (processItemDb_fs_sub cfg md5 _ pi.1 pi.2 st).trans (ih _)

theorem runItems_lookup_processed (cfg : Config) (md5 : List Nat → String)
    (envs : Nat × Nat → ItemEnv) (l : List (Product × DownloadItem))
    (st : SyncState) (p : Product) (i : DownloadItem)
    (hnodup : (l.map (fun pi => itemKey pi.1 pi.2)).Nodup)
    (hmem : (p, i) ∈ l)
    (hdry : cfg.dryRun = false)
    (henv : envSucceeds cfg md5 (envs (itemKey p i)) i) :
    ∃ content,
      lookupFile (runItems cfg md5 envs l st).cache (itemKey p i) =
        some (writtenRecord cfg md5 p i content (envs (itemKey p i)).nowIso) ∧
      filePath cfg p i ∈ (runItems cfg md5 envs l st).fs := by
  induction l generalizing st with
  | nil => cases hmem
  | cons pj l ih =>
      rcases List.mem_cons.mp hmem with heq | hmem'
      · subst heq
        obtain ⟨content, _, hstep⟩ :=
          processItemDb_success cfg md5 (envs (itemKey p i)) p i st hdry henv
        refine ⟨content, ?_, ?_⟩
        · rw [runItems_cons]
          have hk : itemKey p i ∉ l.map (fun pi => itemKey pi.1 pi.2) := by
            have := hnodup
            simp only [List.map_cons, List.nodup_cons] at this
            exact this.1
          rw [runItems_lookup_notmem _ _ _ _ _ _ hk, hstep]
          exact lookupFile_upsert_self _ _ _
        · rw [runItems_cons]
          refine runItems_fs_sub _ _ _ _ _ ?_
          rw [hstep]
          exact List.mem_cons_self _ _
      · have hnodup' : (l.map (fun pi => itemKey pi.1 pi.2)).Nodup := by
          simp only [List.map_cons, List.nodup_cons] at hnodup
          exact hnodup.2
        rw [runItems_cons]
        exact ih _ hnodup' hmem'

/-! ### Characterization of the change detector -/

theorem needDownloadDb_eq_false_iff (cfg : Config) (st : SyncState)
    (product : Product) (item : DownloadItem) :
    needDownloadDb cfg st product item = false ↔
      ∃ r, lookupFile st.cache (itemKey product item) = some r ∧
        filePath cfg product item = r.local_path ∧
        some product.fileLastModified = r.api_last_modified ∧
        (cfg.useChecksums = true → newestChecksum item = r.api_checksum) ∧
        filePath cfg product item ∈ st.fs := by
  unfold needDownloadDb
  cases hl : lookupFile st.cache (itemKey product item) with
  | none => simp
  | some r =>
      constructor
      · intro h
        dsimp only at h
        split_ifs at h with h1 h2 h3 h4
        refine ⟨r, rfl, not_not.mp h1, not_not.mp h2, ?_, h4⟩
        intro hu
        by_contra hne
        exact h3 ⟨hu, hne⟩
      · rintro ⟨r', hr', hpath, hmod, hchk, hfs⟩
        injection hr' with hrr
        subst hrr
        dsimp only
        split_ifs <;> simp_all

theorem needDownloadDb_true_of_path_ne (cfg : Config) (st : SyncState)
    (product : Product) (item : DownloadItem) (r : FileRecord)
    (hl : lookupFile st.cache (itemKey product item) = some r)
    (hpath : filePath cfg product item ≠ r.local_path) :
    needDownloadDb cfg st product item = true := by
  unfold needDownloadDb
  rw [hl]
  dsimp only
  split_ifs
  simp_all

theorem needDownloadDb_true_of_modified_ne (cfg : Config) (st : SyncState)
    (product : Product) (item : DownloadItem) (r : FileRecord)
    (hl : lookupFile st.cache (itemKey product item) = some r)
    (hpath : filePath cfg product item = r.local_path)
    (hmod : some product.fileLastModified ≠ r.api_last_modified) :
    needDownloadDb cfg st product item = true := by
  unfold needDownloadDb
  rw [hl]
  dsimp only
  split_ifs <;> simp_all

/-! ### Lemmas about a full pass -/

theorem touchedKeys_eq_map (ps : List Product) :
    touchedKeys ps = (enumeratedItems ps).map (fun pi => itemKey pi.1 pi.2) := by
  unfold touchedKeys enumeratedItems
  rw [List.map_flatMap]
  simp only [List.map_map]
  rfl

theorem mem_enumeratedItems {ps : List Product} {p : Product} {i : DownloadItem}
    (h : (p, i) ∈ enumeratedItems ps) : p ∈ ps ∧ i ∈ p.files := by
  unfold enumeratedItems at h
  rw [List.mem_flatMap] at h
  obtain ⟨p', hp', hmem⟩ := h
  rw [List.mem_map] at hmem
  obtain ⟨i', hi', heq⟩ := hmem
  injection heq with h1 h2
  subst h1
  subst h2
  exact ⟨hp', hi'⟩

theorem syncPass_ok (cfg : Config) (md5 : List Nat → String) (now : String)
    (envs : Nat × Nat → ItemEnv) (yielded : List Product) (st : SyncState) :
    syncPass cfg md5 now envs yielded true st =
      ({ cleanupState (touchedKeys yielded)
          (runItems cfg md5 envs (passToDownload cfg now yielded st)
            (afterProducts now yielded st)) with connClosed := true },
        (passToDownload cfg now yielded st).map (fun pi => itemKey pi.1 pi.2)) := rfl

theorem afterProducts_cache (now : String) (yielded : List Product) (st : SyncState) :
    (afterProducts now yielded st).cache = st.cache := rfl

theorem afterProducts_fs (now : String) (yielded : List Product) (st : SyncState) :
    (afterProducts now yielded st).fs = st.fs := rfl

/-- Core of the idempotence argument: after a pass in which enumeration
succeeded and every dispatched pipeline run succeeded, and with the remote
state unchanged, the change detector flags nothing on the next pass. -/
theorem secondPass_no_downloads (cfg : Config) (md5 : List Nat → String)
    (now now2 : String) (envs envs2 : Nat × Nat → ItemEnv)
    (products : List Product) (st : SyncState)
    (hdry : cfg.dryRun = false)
    (hnodup : (touchedKeys products).Nodup)
    (henv : ∀ p ∈ products, ∀ i ∈ p.files, envSucceeds cfg md5 (envs (itemKey p i)) i) :
    (syncPass cfg md5 now2 envs2 products true
      (syncPass cfg md5 now envs products true st).1).2 = [] := by
  rw [syncPass_ok, syncPass_ok]
  rw [List.map_eq_nil_iff]
  rw [passToDownload, List.filter_eq_nil_iff]
  rintro ⟨p, i⟩ hmem
  rw [Bool.not_eq_true]
  obtain ⟨hp, hi⟩ := mem_enumeratedItems hmem
  have hkeymem : itemKey p i ∈ touchedKeys products := by
    rw [touchedKeys_eq_map]
    exact List.mem_map.mpr ⟨(p, i), hmem, rfl⟩
  have htne : touchedKeys products ≠ [] := List.ne_nil_of_mem hkeymem
  set st1 := afterProducts now products st with hst1
  set toDL := passToDownload cfg now products st with htoDL
  set st2 := runItems cfg md5 envs toDL st1 with hst2
  set stF : SyncState :=
    { cleanupState (touchedKeys products) st2 with connClosed := true } with hstF
  set stF2 := afterProducts now2 products stF with hstF2
  have hcacheF2 : stF2.cache = cleanupDb (touchedKeys products) st2.cache := rfl
  have hfsF2 : stF2.fs = st2.fs := rfl
  rw [needDownloadDb_eq_false_iff]
  cases hneed : needDownloadDb cfg st1 p i with
  | true =>
      have hmemDL : (p, i) ∈ toDL := by
        rw [htoDL, passToDownload]
        exact List.mem_filter.mpr ⟨hmem, hneed⟩
      have hnodupDL : (toDL.map (fun pi => itemKey pi.1 pi.2)).Nodup := by
        refine List.Nodup.sublist ?_ (touchedKeys_eq_map products ▸ hnodup)
        exact (List.filter_sublist _).map _
      obtain ⟨content, hlook, hfsmem⟩ :=
        runItems_lookup_processed cfg md5 envs toDL st1 p i hnodupDL hmemDL hdry
          (henv p hp i hi)
      refine ⟨writtenRecord cfg md5 p i content ((envs (itemKey p i)).nowIso), ?_, rfl,
        rfl, fun _ => rfl, ?_⟩
      · rw [hcacheF2, lookupFile_cleanup_mem _ _ _ htne hkeymem]
        exact hlook
      · rw [hfsF2]
        exact hfsmem
  | false =>
      obtain ⟨r, hr, hpath, hmod, hchk, hfsmem⟩ :=
        (needDownloadDb_eq_false_iff cfg st1 p i).mp hneed
      have hknot : itemKey p i ∉ toDL.map (fun pi => itemKey pi.1 pi.2) := by
        intro hin
        obtain ⟨⟨p', i'⟩, hmemDL', hkeq⟩ := List.mem_map.mp hin
        have hmem' : (p', i') ∈ enumeratedItems products :=
          List.mem_of_mem_filter hmemDL'
        have heqpi : ((p', i') : Product × DownloadItem) = (p, i) := by
          refine List.inj_on_of_nodup_map (touchedKeys_eq_map products ▸ hnodup)
            hmem' hmem ?_
          exact hkeq
        rw [heqpi] at hmemDL'
        have := List.of_mem_filter hmemDL'
        rw [← hst1] at this
        rw [hneed] at this
        cases this
      refine ⟨r, ?_, hpath, hmod, hchk, ?_⟩
      · rw [hcacheF2, lookupFile_cleanup_mem _ _ _ htne hkeymem]
        rw [hst2, runItems_lookup_notmem _ _ _ _ _ _ hknot]
        exact hr
      · rw [hfsF2, hst2]
        exact runItems_fs_sub cfg md5 envs toDL st1 hfsmem

/-! ### Claims -/

/-- Default-policy pipeline written exactly as claim C4 states it: the
trimming step removes leading and trailing occurrences of the full
three-character `" - "` sequence, not individual characters.  Compared
against `PathNormalizer.normalize`, whose trimming is Python `str.strip`. -/
def stripSeqSep (l : List Char) : List Char :=
  (eatSeps ((eatSeps l).reverse)).reverse

/-- Claimed default policy with full-sequence trimming (claim C4's words). -/
def defaultPolicyClaimed (part : String) : String :=
  String.mk (collapseWs (collapseSep (stripSeqSep (replaceForbidden (unescapeChars part.data)))))

/-- C4 counterexample: on `"-x"` the real normalizer trims the lone leading
hyphen (Python `strip(" - ")` trims characters from the set `{' ', '-'}`),
while the claimed full-sequence trimming would leave `"-x"` unchanged. -/
theorem claim4_counterexample :
    PathNormalizer.normalize "-x" = "x" ∧
    defaultPolicyClaimed "-x" = "-x" ∧
    PathNormalizer.normalize "-x" ≠ defaultPolicyClaimed "-x" := by
  decide

/-- C4 amended: the default policy decodes HTML entities, replaces each
forbidden character by `" - "`, trims leading/trailing characters drawn from
the set `{' ', '-'}` (Python `str.strip(" - ")` semantics, not whole-sequence
trimming), collapses runs of repeated `" - "` into one, and collapses
whitespace runs into a single space; in particular it maps
`"Sword &amp; Sorcery: Rules"` to `"Sword & Sorcery - Rules"`. -/
theorem claim4_amended :
    (∀ part : String, PathNormalizer.normalize part =
      String.mk (collapseWs (collapseSep (stripChars
        (replaceForbidden (unescapeChars part.data)))))) ∧
    PathNormalizer.normalize "Sword &amp; Sorcery: Rules" = "Sword & Sorcery - Rules" := by
  constructor
  · intro part
    rfl
  · decide

/-- Item of the spec's newest-checksum example. -/
def c5Item : DownloadItem :=
  { index := 1, filename := "f", fileLastModified := "2020-01-01",
    checksums := [⟨"c1", "2020-01-01"⟩, ⟨"c2", "2021-01-01"⟩, ⟨"c3", "2019-01-01"⟩] }

/-- C5: the checksum used for comparison and storage is the entry with the
maximum checksum timestamp among the item's reported pairs, an item with zero
entries yields no checksum, and on the spec's example the selected checksum
is `"c2"`. -/
theorem claim5_newest_checksum (item : DownloadItem) :
    (item.checksums = [] → newestChecksum item = none) ∧
    (∀ c cs, item.checksums = c :: cs →
      ∃ e ∈ item.checksums, newestChecksum item = some e.checksum ∧
        ∀ e' ∈ item.checksums,
          datetimeFromIso e'.checksumDate ≤ datetimeFromIso e.checksumDate) ∧
    newestChecksum c5Item = some "c2" := by
  refine ⟨?_, ?_, by decide⟩
  · intro h
    simp [newestChecksum, h]
  · intro c cs h
    refine ⟨cs.foldl maxStep c, ?_, ?_, ?_⟩
    · rw [h]
      exact foldl_maxStep_mem cs c
    · simp [newestChecksum, h]
    · rw [h]
      exact foldl_maxStep_ge cs c

theorem claim5_witness :
    c5Item.checksums ≠ [] ∧ newestChecksum c5Item = some "c2" :=
  ⟨by decide, (claim5_newest_checksum c5Item).2.2⟩

/-- C1: for every item, a failed URL acquisition, a failed content fetch, a
checksum-validation mismatch, or a failed filesystem write leaves the whole
state untouched: the cache (in particular the row for this key, present or
absent) is exactly as before the attempt and no file is written. -/
theorem claim1_failure_no_record (cfg : Config) (md5 : List Nat → String)
    (env : ItemEnv) (product : Product) (item : DownloadItem) (st : SyncState)
    (h : env.url = UrlOutcome.failure ∨
      env.fetch = FetchOutcome.httpStatusError ∨
      env.fetch = FetchOutcome.requestError ∨
      (∃ content a, env.fetch = FetchOutcome.success content ∧
        cfg.validate = true ∧ newestChecksum item = some a ∧ a ≠ "" ∧
        md5 content ≠ a) ∨
      env.writeOk = false) :
    processItemDb cfg md5 env product item st = st := by
  by_cases hd : cfg.dryRun = true
  · simp [processItemDb, hd]
  · rcases h with h | h | h | ⟨content, a, hf, hv, hn, hne, hmd⟩ | h
    · simp [processItemDb, hd, h]
    · cases hu : env.url with
      | failure => simp [processItemDb, hd, hu]
      | success u => simp [processItemDb, hd, hu, h]
    · cases hu : env.url with
      | failure => simp [processItemDb, hd, hu]
      | success u => simp [processItemDb, hd, hu, h]
    · cases hu : env.url with
      | failure => simp [processItemDb, hd, hu]
      | success u =>
          have hC : cfg.validate = true ∧
              checksumTruthy (newestChecksum item) = true ∧
              some (md5 content) ≠ newestChecksum item := by
            refine ⟨hv, ?_, ?_⟩
            · rw [hn]
              simp [checksumTruthy, hne]
            · rw [hn]
              intro hcon
              injection hcon with hcc
              exact hmd hcc
          simp only [processItemDb, hd, hu, hf]
          rw [if_pos hC]
          simp
    · cases hu : env.url with
      | failure => simp [processItemDb, hd, hu]
      | success u =>
          cases hf : env.fetch with
          | httpStatusError => simp [processItemDb, hd, hu, hf]
          | requestError => simp [processItemDb, hd, hu, hf]
          | success content =>
              simp only [processItemDb, hd, hu, hf]
              split_ifs <;> simp_all

def c1Cfg : Config := ⟨["lib"], true, true, false, false, false, 5⟩

def c1Md5 : List Nat → String := fun _ => "d41d8cd9"

def c1Item : DownloadItem := ⟨1, "f.pdf", "2020-01-01T00:00:00", [⟨"aa", "2020-01-01"⟩]⟩

def c1Product : Product := ⟨1, "Game", some "Pub", "2020-01-01T00:00:00", [c1Item]⟩

def c1Env : ItemEnv := ⟨UrlOutcome.failure, FetchOutcome.success [0], true, "T"⟩

def c1St : SyncState := ⟨[], [], [], false⟩

theorem claim1_witness :
    processItemDb c1Cfg c1Md5 c1Env c1Product c1Item c1St = c1St :=
  claim1_failure_no_record c1Cfg c1Md5 c1Env c1Product c1Item c1St (Or.inl rfl)

/-- C10: on every successful download the stored `api_checksum` is the
item's newest reported checksum whatever the two checksum toggles are, and
`local_checksum` is the computed content hash exactly when the validation
toggle is on and the item reports a (non-empty, per Python truthiness)
checksum, `none` otherwise. -/
theorem claim10_checksum_fields (cfg : Config) (md5 : List Nat → String)
    (env : ItemEnv) (product : Product) (item : DownloadItem) (st : SyncState)
    (hdry : cfg.dryRun = false) (henv : envSucceeds cfg md5 env item) :
    ∃ content, env.fetch = FetchOutcome.success content ∧
      ∃ r, lookupFile (processItemDb cfg md5 env product item st).cache
          (itemKey product item) = some r ∧
        r.api_checksum = newestChecksum item ∧
        r.local_checksum =
          (if cfg.validate = true ∧ checksumTruthy (newestChecksum item) = true
           then some (md5 content) else none) := by
  obtain ⟨content, hf, heq⟩ := processItemDb_success cfg md5 env product item st hdry henv
  refine ⟨content, hf,
    writtenRecord cfg md5 product item content env.nowIso, ?_, rfl, rfl⟩
  rw [heq]
  exact lookupFile_upsert_self _ _ _

def c10Cfg : Config := ⟨["lib"], false, false, false, false, false, 5⟩

def c10Md5 : List Nat → String := fun _ => "d41d8cd9"

def c10Item : DownloadItem := ⟨1, "f.pdf", "2020-01-01T00:00:00", [⟨"aa", "2020-01-01"⟩]⟩

def c10Product : Product := ⟨1, "Game", some "Pub", "2020-01-01T00:00:00", [c10Item]⟩

def c10Env : ItemEnv := ⟨UrlOutcome.success "u", FetchOutcome.success [7], true, "T"⟩

def c10St : SyncState := ⟨[], [], [], false⟩

theorem claim10_witness :
    ∃ content, c10Env.fetch = FetchOutcome.success content ∧
      ∃ r, lookupFile (processItemDb c10Cfg c10Md5 c10Env c10Product c10Item c10St).cache
          (itemKey c10Product c10Item) = some r ∧
        r.api_checksum = newestChecksum c10Item ∧
        r.local_checksum =
          (if c10Cfg.validate = true ∧ checksumTruthy (newestChecksum c10Item) = true
           then some (c10Md5 content) else none) :=
  claim10_checksum_fields c10Cfg c10Md5 c10Env c10Product c10Item c10St rfl
    ⟨⟨"u", rfl⟩, rfl, [7], rfl, fun hcon => absurd hcon (by decide)⟩

def c2Cfg : Config := ⟨["lib"], false, false, false, false, false, 1⟩

def c2Item : DownloadItem := ⟨1, "f.pdf", "B", []⟩

def c2Product : Product := ⟨1, "Game", some "Pub", "A", [c2Item]⟩

def c2Rec : FileRecord :=
  { filename := "f.pdf", api_last_modified := some "A", api_checksum := none,
    local_path := filePath c2Cfg c2Product c2Item, local_last_synced := some "T",
    local_checksum := none }

def c2St : SyncState :=
  ⟨[], [((1, 1), c2Rec)], [filePath c2Cfg c2Product c2Item], false⟩

/-- C2 counterexample: the change detector reads the PRODUCT-level
`fileLastModified` (sync.py line 191), not the per-item field.  Here the
item's own `fileLastModified` (`"B"`) differs from the cached
`api_last_modified` (`"A"`), the cached path matches, yet no download is
required because the product-level string matches the cache. -/
theorem claim2_counterexample :
    some c2Item.fileLastModified ≠ c2Rec.api_last_modified ∧
    lookupFile c2St.cache (itemKey c2Product c2Item) = some c2Rec ∧
    c2Rec.local_path = filePath c2Cfg c2Product c2Item ∧
    needDownloadDb c2Cfg c2St c2Product c2Item = false := by
  decide

/-- C2 amended: step 3 compares the remote PRODUCT's `fileLastModified`
string against the cached `api_last_modified`; with a matching cached path it
forces a download whenever the two differ, and when they are equal the
outcome is decided exactly by the remaining checks (checksum step and
file-existence fallback). -/
theorem claim2_amended (cfg : Config) (st : SyncState) (product : Product)
    (item : DownloadItem) (r : FileRecord)
    (hl : lookupFile st.cache (itemKey product item) = some r)
    (hpath : filePath cfg product item = r.local_path) :
    (some product.fileLastModified ≠ r.api_last_modified →
      needDownloadDb cfg st product item = true) ∧
    (some product.fileLastModified = r.api_last_modified →
      (needDownloadDb cfg st product item = true ↔
        (cfg.useChecksums = true ∧ newestChecksum item ≠ r.api_checksum) ∨
          filePath cfg product item ∉ st.fs)) := by
  constructor
  · exact needDownloadDb_true_of_modified_ne cfg st product item r hl hpath
  · intro hmod
    unfold needDownloadDb
    rw [hl]
    dsimp only
    rw [if_neg (not_not.mpr hpath), if_neg (not_not.mpr hmod)]
    by_cases h3 : cfg.useChecksums = true ∧ newestChecksum item ≠ r.api_checksum
    · rw [if_pos h3]
      simp [h3]
    · rw [if_neg h3]
      by_cases h4 : filePath cfg product item ∈ st.fs
      · rw [if_neg (not_not.mpr h4)]
        simp [h3, h4]
      · rw [if_pos h4]
        simp [h4]

def c2wProduct : Product := ⟨1, "Game", some "Pub", "B", [c2Item]⟩

theorem claim2_witness :
    needDownloadDb c2Cfg c2St c2wProduct c2Item = true :=
  (claim2_amended c2Cfg c2St c2wProduct c2Item c2Rec (by decide) (by decide)).1
    (by decide)

theorem filePath_omit_flip_ne (cfg cfg' : Config) (p : Product) (i : DownloadItem)
    (hlib : cfg'.libraryPath = cfg.libraryPath)
    (hcompat : cfg'.compatibilityMode = cfg.compatibilityMode)
    (homit : cfg'.omitPublisher = !cfg.omitPublisher)
    (hpub : normalizePathPart (p.publisher.getD "Others") cfg.compatibilityMode ≠ "") :
    filePath cfg' p i ≠ filePath cfg p i := by
  intro heq
  have hlen := congrArg List.length heq
  unfold filePath pathJoin at hlen
  rw [hlib, hcompat, homit] at hlen
  cases ho : cfg.omitPublisher
  · rw [ho] at hlen
    simp [List.filter_cons, hpub] at hlen
  · rw [ho] at hlen
    simp [List.filter_cons, hpub] at hlen

def c6Cfg : Config := ⟨["lib"], false, false, false, false, false, 1⟩

def c6CfgFlip : Config := ⟨["lib"], false, false, true, false, false, 1⟩

def c6Item : DownloadItem := ⟨1, "f.pdf", "A", []⟩

def c6Product : Product := ⟨1, "Game", some "Pub", "A", [c6Item]⟩

def c6Rec : FileRecord :=
  { filename := "f.pdf", api_last_modified := some "A", api_checksum := none,
    local_path := filePath c6Cfg c6Product c6Item, local_last_synced := some "T",
    local_checksum := none }

def c6St : SyncState :=
  ⟨[], [((1, 1), c6Rec)], [filePath c6Cfg c6Product c6Item], false⟩

/-- C6 counterexample: flipping ONLY the compatibility-mode setting does not
always force a re-download: publisher `"Pub"`, product `"Game"` and filename
`"f.pdf"` normalize identically under both policies, so the recomputed path
equals the cached one and `needsDownload` still returns false. -/
theorem claim6_counterexample :
    c6CfgFlip.compatibilityMode = !c6Cfg.compatibilityMode ∧
    c6CfgFlip.omitPublisher = c6Cfg.omitPublisher ∧
    c6CfgFlip.libraryPath = c6Cfg.libraryPath ∧
    c6Rec.local_path = filePath c6Cfg c6Product c6Item ∧
    needDownloadDb c6Cfg c6St c6Product c6Item = false ∧
    needDownloadDb c6CfgFlip c6St c6Product c6Item = false := by
  decide

/-- C6 amended: a previously-synced item (cached `local_path` equal to the
old configuration's computed path) is re-flagged for download whenever the
new configuration's recomputed path differs from the cached one; flipping the
omit-publisher setting (with a non-empty publisher segment) always changes
the path and therefore always forces re-download, while a compatibility-mode
flip forces it only when some segment normalizes differently. -/
theorem claim6_amended (cfg cfg' : Config) (st : SyncState) (p : Product)
    (i : DownloadItem) (r : FileRecord)
    (hl : lookupFile st.cache (itemKey p i) = some r)
    (hrec : r.local_path = filePath cfg p i) :
    (filePath cfg' p i ≠ filePath cfg p i → needDownloadDb cfg' st p i = true) ∧
    (cfg'.libraryPath = cfg.libraryPath →
      cfg'.compatibilityMode = cfg.compatibilityMode →
      cfg'.omitPublisher = !cfg.omitPublisher →
      normalizePathPart (p.publisher.getD "Others") cfg.compatibilityMode ≠ "" →
      needDownloadDb cfg' st p i = true) := by
  constructor
  · intro hne
    refine needDownloadDb_true_of_path_ne cfg' st p i r hl ?_
    rw [hrec]
    exact hne
  · intro h1 h2 h3 h4
    refine needDownloadDb_true_of_path_ne cfg' st p i r hl ?_
    rw [hrec]
    exact filePath_omit_flip_ne cfg cfg' p i h1 h2 h3 h4

def c6wCfgFlip : Config := ⟨["lib"], false, false, false, true, false, 1⟩

theorem claim6_witness :
    needDownloadDb c6wCfgFlip c6St c6Product c6Item = true :=
  (claim6_amended c6Cfg c6wCfgFlip c6St c6Product c6Item c6Rec (by decide) rfl).2
    rfl rfl rfl (by decide)

def c3Touched : List (Nat × Nat) := [(1, 1), (2, 1)]

def c3RecA : FileRecord := ⟨"a.pdf", some "A", none, ["lib", "a.pdf"], some "T", none⟩

def c3RecB : FileRecord := ⟨"b.pdf", some "A", none, ["lib", "b.pdf"], some "T", none⟩

def c3RecC : FileRecord := ⟨"c.pdf", some "A", none, ["lib", "c.pdf"], some "T", none⟩

def c3St : SyncState :=
  ⟨[], [((1, 1), c3RecA), ((1, 2), c3RecB), ((2, 1), c3RecC)],
    [["lib", "a.pdf"], ["lib", "b.pdf"], ["lib", "c.pdf"]], false⟩

def c3xCache : Cache := [((1, 1), c3RecA)]

/-- C3 counterexample: with an EMPTY touched set the cleanup method returns
without deleting anything (sync.py lines 329-331), while the claim's literal
`allFileKeys() - touchedKeys` formula would delete the row `(1, 1)`. -/
theorem claim3_counterexample :
    lookupFile (cleanupDb [] c3xCache) (1, 1) = some c3RecA ∧
    cleanupDb [] c3xCache = c3xCache := by
  decide

/-- C3 amended: for every NON-EMPTY touched set, cleanup deletes from the
cache exactly `allFileKeys() - touchedKeys` (each key survives with its old
row exactly when it is touched) and the filesystem is untouched; with an
empty touched set nothing is deleted. -/
theorem claim3_amended (touched : List (Nat × Nat)) (st : SyncState)
    (hne : touched ≠ []) :
    (∀ k, lookupFile (cleanupState touched st).cache k =
      if k ∈ touched then lookupFile st.cache k else none) ∧
    (cleanupState touched st).fs = st.fs := by
  constructor
  · intro k
    by_cases hk : k ∈ touched
    · rw [if_pos hk]
      exact lookupFile_cleanup_mem touched st.cache k hne hk
    · rw [if_neg hk]
      exact lookupFile_cleanup_notmem touched st.cache k hne hk
  · rfl

theorem claim3_witness :
    lookupFile (cleanupState c3Touched c3St).cache (1, 2) = none ∧
    lookupFile (cleanupState c3Touched c3St).cache (1, 1) = some c3RecA ∧
    lookupFile (cleanupState c3Touched c3St).cache (2, 1) = some c3RecC ∧
    (cleanupState c3Touched c3St).fs = c3St.fs := by
  have h := claim3_amended c3Touched c3St (by decide)
  refine ⟨?_, ?_, ?_, h.2⟩
  · rw [h.1 (1, 2)]
    decide
  · rw [h.1 (1, 1)]
    decide
  · rw [h.1 (2, 1)]
    decide

/-- C7: if the enumeration call fails, the pass aborts after closing the
connection: the dispatched-items list is empty, the files cache and the
filesystem are exactly as before, and the only persisted effects are the
product upserts committed before the failure. -/
theorem claim7_enum_failure_aborts (cfg : Config) (md5 : List Nat → String)
    (now : String) (envs : Nat × Nat → ItemEnv) (yielded : List Product)
    (st : SyncState) :
    syncPass cfg md5 now envs yielded false st =
      ({ productsTable := upsertProducts now yielded st.productsTable,
         cache := st.cache, fs := st.fs, connClosed := true }, []) := rfl

/-- C9: a pass whose enumeration succeeds but yields zero items (empty
touched set) deletes nothing: every existing cache row survives, instead of
the whole files table being removed as the literal difference formula would
dictate. -/
theorem claim9_empty_enumeration_keeps_cache (cfg : Config) (md5 : List Nat → String)
    (now : String) (envs : Nat × Nat → ItemEnv) (products : List Product)
    (st : SyncState) (h : ∀ p ∈ products, p.files = []) :
    (syncPass cfg md5 now envs products true st).1.cache = st.cache ∧
    (syncPass cfg md5 now envs products true st).1.fs = st.fs := by
  have henum : enumeratedItems products = [] := by
    unfold enumeratedItems
    rw [List.flatMap_eq_nil_iff]
    intro p hp
    rw [h p hp]
    rfl
  have htouch : touchedKeys products = [] := by
    rw [touchedKeys_eq_map, henum]
    rfl
  have htd : passToDownload cfg now products st = [] := by
    unfold passToDownload
    rw [henum]
    rfl
  rw [syncPass_ok, htd, htouch]
  constructor
  · simp [cleanupState, cleanupDb_nil, runItems, afterProducts]
  · simp [cleanupState, runItems, afterProducts]

def c9Cfg : Config := ⟨["lib"], true, true, false, false, false, 2⟩

def c9Md5 : List Nat → String := fun _ => "aa"

def c9Envs : Nat × Nat → ItemEnv :=
  fun _ => ⟨UrlOutcome.failure, FetchOutcome.requestError, false, "T"⟩

def c9Product : Product := ⟨1, "Game", some "Pub", "A", []⟩

def c9Rec : FileRecord := ⟨"z.pdf", some "A", none, ["lib", "z.pdf"], some "T", none⟩

def c9St : SyncState := ⟨[], [((3, 1), c9Rec)], [["lib", "z.pdf"]], false⟩

theorem claim9_witness :
    (syncPass c9Cfg c9Md5 "N" c9Envs [c9Product] true c9St).1.cache = c9St.cache ∧
    (syncPass c9Cfg c9Md5 "N" c9Envs [c9Product] true c9St).1.fs = c9St.fs :=
  claim9_empty_enumeration_keeps_cache c9Cfg c9Md5 "N" c9Envs [c9Product] c9St
    (by decide)

/-- C8: with checksum validation enabled, a second full pass over identical
remote state, after a first pass in which every dispatched download
succeeded, dispatches zero items (the change detector returns false for every
enumerated item). -/
theorem claim8_second_pass_downloads_nothing (cfg : Config) (md5 : List Nat → String)
    (now now2 : String) (envs envs2 : Nat × Nat → ItemEnv)
    (products : List Product) (st : SyncState)
    (hdry : cfg.dryRun = false)
    (_hval : cfg.validate = true) (_huse : cfg.useChecksums = true)
    (hnodup : (touchedKeys products).Nodup)
    (henv : ∀ p ∈ products, ∀ i ∈ p.files, envSucceeds cfg md5 (envs (itemKey p i)) i) :
    (syncPass cfg md5 now2 envs2 products true
      (syncPass cfg md5 now envs products true st).1).2 = [] :=
  secondPass_no_downloads cfg md5 now now2 envs envs2 products st hdry hnodup henv

def c8Cfg : Config := ⟨["lib"], true, true, false, false, false, 4⟩

def c8Md5 : List Nat → String := fun _ => "aa"

def c8Item : DownloadItem := ⟨1, "f.pdf", "2020-01-01T00:00:00", [⟨"aa", "2020-01-01"⟩]⟩

def c8Product : Product := ⟨1, "Game", some "Pub", "2020-01-01T00:00:00", [c8Item]⟩

def c8Envs : Nat × Nat → ItemEnv :=
  fun _ => ⟨UrlOutcome.success "u", FetchOutcome.success [0], true, "T"⟩

def c8St : SyncState := ⟨[], [], [], false⟩

theorem claim8_witness :
    (syncPass c8Cfg c8Md5 "N2" c8Envs [c8Product] true
      (syncPass c8Cfg c8Md5 "N1" c8Envs [c8Product] true c8St).1).2 = [] :=
  claim8_second_pass_downloads_nothing c8Cfg c8Md5 "N1" "N2" c8Envs c8Envs
    [c8Product] c8St rfl rfl rfl (by decide)
    (by
      intro p hp i hi
      rw [List.mem_singleton] at hp
      subst hp
      rw [show c8Product.files = [c8Item] from rfl, List.mem_singleton] at hi
      subst hi
      refine ⟨⟨"u", rfl⟩, rfl, [0], rfl, ?_⟩
      intro hv a ha hne
      have hnc : newestChecksum c8Item = some "aa" := by decide
      rw [hnc] at ha
      injection ha with haa)

end Drpg
